import Mathlib

/-!
Verification of the playform terrain engine (server-side surface sampler and
block mesher) against its natural-language specification.

The definitions below are a shallow embedding of
`src/server/src/terrain/terrain_gen.rs`, `src/common/src/terrain_block.rs`
and `src/server/src/client_recv_thread.rs`.  Rust f32/f64 arithmetic is
embedded as exact rational arithmetic; the verified claims do not depend on
floating-point rounding.  Rust machine integers are embedded as Int/Nat with
explicit wrapping where the source casts (the `as u8` cast in the sampler).
-/

/-- Fixed-point fraction in the unit interval: the stored byte numerator over
256.  Mirrors `Frac8` from the terrain module (field `numerator: u8`). -/
structure Frac8 where
  numerator : ℕ
deriving DecidableEq

/-- Mirrors `Frac8::of`. -/
def Frac8.of (n : ℕ) : Frac8 := ⟨n⟩

/-- Edge-crossing flags of one voxel, grouped by axis, 4 edges per axis.
Mirrors `EdgeCrosses` with fields `x_edges`, `y_edges`, `z_edges`, each a
2 by 2 boolean array.  As BUILT by the source (terrain_gen.rs lines 60-73),
`x_edges` holds the edge at coordinates `(y, z)` in slot `[y][z]`, but
`y_edges` holds the edge at `(x, z)` in slot `[z][x]` and `z_edges` holds
the edge at `(x, y)` in slot `[y][x]`; the vertex-accumulation loops then
read `y_edges[x][z]` and `z_edges[x][y]` — a transposed read that the
embedding preserves. -/
structure EdgeCrosses where
  x_edges : Fin 2 → Fin 2 → Bool
  y_edges : Fin 2 → Fin 2 → Bool
  z_edges : Fin 2 → Fin 2 → Bool

instance : DecidableEq EdgeCrosses := fun a b =>
  decidable_of_iff
    (a.x_edges = b.x_edges ∧ a.y_edges = b.y_edges ∧ a.z_edges = b.z_edges)
    (by cases a; cases b; simp)

/-- A surface voxel: quantized vertex, edge-crossing flags, facing flags.
Mirrors `Voxel` (fields `vertex: Vector3<Frac8>`, `edge_crosses`,
`facing: [bool; 3]`). -/
structure Voxel where
  vertex : Frac8 × Frac8 × Frac8
  edge_crosses : EdgeCrosses
  facing : Fin 3 → Bool

instance : DecidableEq Voxel := fun a b =>
  decidable_of_iff
    (a.vertex = b.vertex ∧ a.edge_crosses = b.edge_crosses ∧ a.facing = b.facing)
    (by cases a; cases b; simp)

/-- Integer lattice cube: origin plus log2 of the side length.
Mirrors `VoxelBounds` (`x, y, z: i32`, `lg_size: u8`). -/
structure VoxelBounds where
  x : ℤ
  y : ℤ
  z : ℤ
  lg_size : ℕ
deriving DecidableEq

/-- The type of the 8 cube-corner samples, indexed as `corners[x][y][z]`
exactly like the `corners` array in `generate_voxel`. -/
abbrev Corners := Fin 2 → Fin 2 → Fin 2 → Bool

/-- The 8 corner samples of `generate_voxel`: the field evaluated at
`x1 = bounds.x`, `x2 = bounds.x + (1 << lg_size)` and likewise for y, z. -/
def cornersAt (field : ℚ → ℚ → ℚ → Bool) (b : VoxelBounds) : Corners :=
  let d : ℤ := 2 ^ b.lg_size
  fun i j k =>
    field ((b.x + if i = 1 then d else 0 : ℤ) : ℚ)
          ((b.y + if j = 1 then d else 0 : ℤ) : ℚ)
          ((b.z + if k = 1 then d else 0 : ℤ) : ℚ)

/-- The 12 edge-crossing flags computed by the `edge!` macro: an edge
crosses the surface iff its two endpoint corners differ.  The array layout
is the literal source construction: `x_edges` row `y` lists the edges at
`(y, 0)` and `(y, 1)`; `y_edges` row `i` lists the edges at `(x := 0, z := i)`
and `(x := 1, z := i)`, i.e. slot `[i][j]` holds the edge at `x = j, z = i`;
`z_edges` row `i` lists the edges at `(x := 0, y := i)` and `(x := 1, y := i)`,
i.e. slot `[i][j]` holds the edge at `x = j, y = i`. -/
def edgeCrossesOf (c : Corners) : EdgeCrosses where
  x_edges := fun y z => c 0 y z != c 1 y z
  y_edges := fun i j => c j 0 i != c j 1 i
  z_edges := fun i j => c j i 0 != c j i 1

/-- Boolean disjunction over a 2 by 2 index square. -/
def or4 (f : Fin 2 → Fin 2 → Bool) : Bool :=
  f 0 0 || f 0 1 || f 1 0 || f 1 1

/-- The facing flags set by the `edge!` macro: `facing[axis]` becomes true
when some crossing edge on that axis has its first-listed corner (the corner
with the smaller coordinate on that axis) inside the solid. -/
def facingOf (c : Corners) : Fin 3 → Bool := fun a =>
  if a = 0 then or4 fun y z => (c 0 y z != c 1 y z) && c 0 y z
  else if a = 1 then or4 fun x z => (c x 0 z != c x 1 z) && c x 0 z
  else or4 fun x y => (c x y 0 != c x y 1) && c x y 0

/-- Sum of a natural-valued function over a 2 by 2 index square. -/
def sum4 (f : Fin 2 → Fin 2 → ℕ) : ℕ :=
  f 0 0 + f 0 1 + f 1 0 + f 1 1

/-- Number of crossing edges (`n` in `generate_voxel`); iterating all 4
slots of each array, the count is unaffected by the array layout. -/
def crossCount (e : EdgeCrosses) : ℕ :=
  sum4 (fun y z => cond (e.x_edges y z) 1 0) +
  sum4 (fun x z => cond (e.y_edges x z) 1 0) +
  sum4 (fun x y => cond (e.z_edges x y) 1 0)

/-- The integer vertex accumulator of `generate_voxel`, mirroring the three
loops: the loop over `x_edges[y][z]` adds `(half, y << 8, z << 8)`, the loop
over `y_edges[x][z]` adds `(x << 8, half, z << 8)`, and the loop over
`z_edges[x][y]` adds `(x << 8, y << 8, half)` (`half = 0x80`).  Note the
loops index `y_edges` and `z_edges` TRANSPOSED relative to how
`edgeCrossesOf` built them (slot `[i][j]` actually holds the edge at
`x = j`), so an off-diagonal crossing y or z edge contributes the midpoint
of the transposed edge position — faithful to the source. -/
def vertexSum (e : EdgeCrosses) : ℕ × ℕ × ℕ :=
  ( sum4 (fun y z => cond (e.x_edges y z) 128 0) +
    sum4 (fun x z => cond (e.y_edges x z) (x.val * 256) 0) +
    sum4 (fun x y => cond (e.z_edges x y) (x.val * 256) 0)
  , sum4 (fun y z => cond (e.x_edges y z) (y.val * 256) 0) +
    sum4 (fun x z => cond (e.y_edges x z) 128 0) +
    sum4 (fun x y => cond (e.z_edges x y) (y.val * 256) 0)
  , sum4 (fun y z => cond (e.x_edges y z) (z.val * 256) 0) +
    sum4 (fun x z => cond (e.y_edges x z) (z.val * 256) 0) +
    sum4 (fun x y => cond (e.z_edges x y) 128 0) )

/-- Core of `generate_voxel` as a function of the 8 corner samples: if no
edge crosses, return nothing; otherwise divide the accumulated sums by the
crossing count (integer division, nonnegative operands) and store each
component through the `as u8` cast (reduction mod 256). -/
def genVoxelFromCorners (c : Corners) : Option Voxel :=
  let edges := edgeCrossesOf c
  let n := crossCount edges
  if n = 0 then none
  else
    let s := vertexSum edges
    some
      { vertex :=
          ( Frac8.of (s.1 / n % 256)
          , Frac8.of (s.2.1 / n % 256)
          , Frac8.of (s.2.2 / n % 256) )
      , edge_crosses := edges
      , facing := facingOf c }

/-- The surface sampler `generate_voxel(timers, field_contains, voxel)`:
evaluate the field at the 8 cube corners and build the optional voxel. -/
def generate_voxel (field : ℚ → ℚ → ℚ → Bool) (b : VoxelBounds) : Option Voxel :=
  genVoxelFromCorners (cornersAt field b)

/-- Corner table built from 8 explicit booleans, used to finitely enumerate
all corner configurations. -/
def mkCorners (b000 b001 b010 b011 b100 b101 b110 b111 : Bool) : Corners :=
  fun i j k =>
    if i = 0 then
      if j = 0 then (if k = 0 then b000 else b001)
      else (if k = 0 then b010 else b011)
    else
      if j = 0 then (if k = 0 then b100 else b101)
      else (if k = 0 then b110 else b111)

/-- Rational sum over a 2 by 2 index square. -/
def sum4q (f : Fin 2 → Fin 2 → ℚ) : ℚ :=
  f 0 0 + f 0 1 + f 1 0 + f 1 1

/-- Number of crossing edges computed from the corner samples directly
(independent of any array layout): an x edge at `(y, z)` crosses iff
`c 0 y z` and `c 1 y z` differ, and likewise per axis. -/
def crossTotal (c : Corners) : ℕ :=
  sum4 (fun y z => cond (c 0 y z != c 1 y z) 1 0) +
  sum4 (fun x z => cond (c x 0 z != c x 1 z) 1 0) +
  sum4 (fun x y => cond (c x y 0 != c x y 1) 1 0)

/-- The exact arithmetic mean of the crossing-edge midpoints in cube-local
coordinates — the analytic value the spec compares the quantized vertex
against — computed from the corner samples directly: the crossing x edge at
`(y, z)` has midpoint `(1/2, y, z)`, the crossing y edge at `(x, z)` has
midpoint `(x, 1/2, z)`, the crossing z edge at `(x, y)` has midpoint
`(x, y, 1/2)`; the mean averages the midpoints of the crossing edges. -/
def exactMeanCorners (c : Corners) : ℚ × ℚ × ℚ :=
  let n : ℚ := crossTotal c
  ( (sum4q (fun y z => if c 0 y z != c 1 y z then 1/2 else 0) +
     sum4q (fun x z => if c x 0 z != c x 1 z then (x.val : ℚ) else 0) +
     sum4q (fun x y => if c x y 0 != c x y 1 then (x.val : ℚ) else 0)) / n
  , (sum4q (fun y z => if c 0 y z != c 1 y z then (y.val : ℚ) else 0) +
     sum4q (fun x z => if c x 0 z != c x 1 z then 1/2 else 0) +
     sum4q (fun x y => if c x y 0 != c x y 1 then (y.val : ℚ) else 0)) / n
  , (sum4q (fun y z => if c 0 y z != c 1 y z then (z.val : ℚ) else 0) +
     sum4q (fun x z => if c x 0 z != c x 1 z then (z.val : ℚ) else 0) +
     sum4q (fun x y => if c x y 0 != c x y 1 then 1/2 else 0)) / n )

/-- Decision procedure for claim C2 at one corner configuration: the sampler
returns no voxel exactly when all 8 corners agree. -/
def c2Check (c : Corners) : Bool :=
  decide ((genVoxelFromCorners c = none) ↔ ∀ i j k, c i j k = c 0 0 0)

/-- Some crossing x-axis edge has its corner nearer negative infinity along
x inside the solid. -/
def lowerSolidX (c : Corners) : Prop :=
  ∃ y z : Fin 2, (c 0 y z ≠ c 1 y z) ∧ c 0 y z = true

/-- Some crossing y-axis edge has its corner nearer negative infinity along
y inside the solid. -/
def lowerSolidY (c : Corners) : Prop :=
  ∃ x z : Fin 2, (c x 0 z ≠ c x 1 z) ∧ c x 0 z = true

/-- Some crossing z-axis edge has its corner nearer negative infinity along
z inside the solid. -/
def lowerSolidZ (c : Corners) : Prop :=
  ∃ x y : Fin 2, (c x y 0 ≠ c x y 1) ∧ c x y 0 = true

/-- Some crossing x-axis edge has its corner nearer positive infinity along
x inside the solid (the reading claim C4 asserts for the facing flag). -/
def upperSolidX (c : Corners) : Prop :=
  ∃ y z : Fin 2, (c 0 y z ≠ c 1 y z) ∧ c 1 y z = true

instance (c : Corners) : Decidable (lowerSolidX c) := by
  unfold lowerSolidX; infer_instance

instance (c : Corners) : Decidable (lowerSolidY c) := by
  unfold lowerSolidY; infer_instance

instance (c : Corners) : Decidable (lowerSolidZ c) := by
  unfold lowerSolidZ; infer_instance

instance (c : Corners) : Decidable (upperSolidX c) := by
  unfold upperSolidX; infer_instance

/-- Decision procedure for the corrected claim C4 at one corner
configuration: each facing flag is true exactly when some crossing edge on
that axis has its lower corner inside the solid. -/
def c4Check (c : Corners) : Bool :=
  match genVoxelFromCorners c with
  | none => true
  | some v =>
    decide ((v.facing 0 = true ↔ lowerSolidX c) ∧
            (v.facing 1 = true ↔ lowerSolidY c) ∧
            (v.facing 2 = true ↔ lowerSolidZ c))


/-! ## Block mesher (`generate_block`) -/

/-- Point or vector with rational coordinates (embeds `Point3<f32>` /
`Vector3<f32>`; the settled claims do not depend on float rounding). -/
abbrev Q3 := ℚ × ℚ × ℚ

/-- Integer lattice point (embeds `Point3<i32>` / `Vector3<i32>`). -/
abbrev I3 := ℤ × ℤ × ℤ

def addI3 (a b : I3) : I3 := (a.1 + b.1, a.2.1 + b.2.1, a.2.2 + b.2.2)

def addQ3 (a b : Q3) : Q3 := (a.1 + b.1, a.2.1 + b.2.1, a.2.2 + b.2.2)

def divQ3 (a : Q3) (k : ℚ) : Q3 := (a.1 / k, a.2.1 / k, a.2.2 / k)

/-- Mirrors `TerrainBlock` from `common/src/terrain_block.rs`: parallel
per-triangle sequences.  `vertex_coordinates`, `normals` and `coords` hold
one 3-entry tuple per triangle; `bounds` pairs the triangle entity id with
an axis-aligned box (min corner, max corner). -/
structure TerrainBlock where
  vertex_coordinates : List (Q3 × Q3 × Q3)
  normals : List (Q3 × Q3 × Q3)
  coords : List ((ℚ × ℚ) × (ℚ × ℚ) × (ℚ × ℚ))
  ids : List ℕ
  bounds : List (ℕ × (Q3 × Q3))
  pixels : List (ℚ × ℚ × ℚ)

/-- Mirrors `TerrainBlock::empty`. -/
def TerrainBlock.empty : TerrainBlock := ⟨[], [], [], [], [], []⟩

/-- Octree node content at one slot.  Modelled from the spec: the octree
node is the tagged variant `Empty | Leaf(Voxel) | Branch(8 children)`
(`voxel_tree::TreeBody`, whose defining module is not among the provided
sources).  The children of a Branch are elided here because every code path
under verification overwrites a Branch without reading its children. -/
inductive TreeBody where
  | Empty : TreeBody
  | Leaf : Voxel → TreeBody
  | Branch : TreeBody

/-- Modelled from the spec: the sparse voxel octree (`VoxelTree`, defining
module not among the provided sources) is a persistent store addressed by
voxel bounds; `get_mut(bounds)` yields the slot exactly matching `bounds`.
It is embedded as the mapping from bounds to slot contents; descending
allocation of intermediate Branch nodes does not affect the addressed slot
and is not modelled. -/
def VoxelTree := VoxelBounds → TreeBody

/-- Slot write: the store after `*branch = body` at `b`. -/
def treeSet (t : VoxelTree) (b : VoxelBounds) (body : TreeBody) : VoxelTree :=
  fun q => if q = b then body else t q

/-- The `get_voxel!` macro of `generate_block` (terrain_gen.rs lines
214-235): a Leaf slot returns its cached voxel unchanged; an Empty or
Branch slot runs the sampler and, when it yields a voxel, overwrites the
slot with a fresh Leaf (a sampler miss writes nothing). -/
def getVoxel (field : ℚ → ℚ → ℚ → Bool) (t : VoxelTree) (b : VoxelBounds) :
    Option Voxel × VoxelTree :=
  match t b with
  | TreeBody.Leaf v => (some v, t)
  | TreeBody.Empty =>
    match generate_voxel field b with
    | some v => (some v, treeSet t b (TreeBody.Leaf v))
    | none => (none, t)
  | TreeBody.Branch =>
    match generate_voxel field b with
    | some v => (some v, treeSet t b (TreeBody.Leaf v))
    | none => (none, t)

/-- Mirrors `to_world_vertex`: shift the 8-bit numerator left by `lg_size`,
divide by 256, and add the voxel world position. -/
def toWorldVertex (lg_size : ℕ) (localv : Frac8 × Frac8 × Frac8) (p : I3) : Q3 :=
  ( (p.1 : ℚ) + ((localv.1.numerator <<< lg_size : ℕ) : ℚ) / 256
  , (p.2.1 : ℚ) + ((localv.2.1.numerator <<< lg_size : ℕ) : ℚ) / 256
  , (p.2.2 : ℚ) + ((localv.2.2.numerator <<< lg_size : ℕ) : ℚ) / 256 )

/-- Stand-in for the voxel behind the `.unwrap()` in `get_vertex!`.  The
source aborts if the neighbor voxel is absent (the spec guarantees it is
not, by the crossing-edge topology); no claim settled here depends on the
value used in that branch. -/
def defaultVoxel : Voxel :=
  ⟨(⟨0⟩, ⟨0⟩, ⟨0⟩), ⟨fun _ _ => false, fun _ _ => false, fun _ _ => false⟩, fun _ => false⟩

/-- The `get_vertex!` macro: fetch (or generate) the voxel at `w` and
project its vertex to world coordinates. -/
def getVertex (field : ℚ → ℚ → ℚ → Bool) (t : VoxelTree) (lg_size : ℕ) (w : I3) :
    Q3 × VoxelTree :=
  let r := getVoxel field t ⟨w.1, w.2.1, w.2.2, lg_size⟩
  (toWorldVertex lg_size ((r.1.getD defaultVoxel).vertex) w, r.2)

/-- Mutable state threaded through `generate_block`: the octree, the next
entity id of the id allocator, and the block under construction. -/
structure GenState where
  tree : VoxelTree
  nextId : ℕ
  block : TerrainBlock

/-- The constant placeholder normal of `add_poly` (`// TODO: Real
normals.`). -/
def norm3 : Q3 := (0, 1, 0)

/-- Mirrors `add_poly(v1, v2, center)`: allocate a fresh id, take
component-wise min/max of the three vertices with the minimum y padded
down by 1.0, and append one entry to each accumulating sequence
(`vertex_coordinates`, `normals`, `ids`, `bounds` — and nothing else). -/
def addPoly (v1 v2 center : Q3) (s : GenState) : GenState :=
  let id := s.nextId
  let minx := min (min v1.1 v2.1) center.1
  let maxx := max (max v1.1 v2.1) center.1
  let miny := min (min v1.2.1 v2.2.1) center.2.1
  let maxy := max (max v1.2.1 v2.2.1) center.2.1
  let minz := min (min v1.2.2 v2.2.2) center.2.2
  let maxz := max (max v1.2.2 v2.2.2) center.2.2
  { s with
    nextId := s.nextId + 1
    block := { s.block with
      vertex_coordinates := s.block.vertex_coordinates ++ [(v1, v2, center)]
      normals := s.block.normals ++ [(norm3, norm3, norm3)]
      ids := s.block.ids ++ [id]
      bounds := s.block.bounds ++
        [(id, ((minx, miny - 1, minz), (maxx, maxy, maxz)))] } }

/-- Emit the 4 fan triangles of one quad, in source order; the winding is
chosen from the facing flag. -/
def emitQuad (v1 v2 v3 v4 : Q3) (facingPos : Bool) (s : GenState) : GenState :=
  let center := divQ3 (addQ3 (addQ3 (addQ3 v1 v2) v3) v4) 4
  if facingPos then
    addPoly v2 v1 center (addPoly v3 v2 center (addPoly v4 v3 center
      (addPoly v1 v4 center s)))
  else
    addPoly v4 v1 center (addPoly v3 v4 center (addPoly v2 v3 center
      (addPoly v1 v2 center s)))

/-- Per-axis data of the `extract!` macro: the edge-flag selector, the
facing index, and the two negative offsets spanning the quad. -/
structure AxisData where
  sel : EdgeCrosses → Fin 2 → Fin 2 → Bool
  facingIdx : Fin 3
  d1 : I3
  d2 : I3

/-- One iteration of the `extract!` triple loop at lattice offset `xyz`:
fetch the voxel, skip when absent or when its `[0][0]` edge on this axis
does not cross, otherwise fetch the three edge-adjacent neighbor vertices
and emit the quad fan around their average. -/
def extractStep (field : ℚ → ℚ → ℚ → Bool) (lg_size : ℕ) (ipos : I3)
    (ax : AxisData) (s : GenState) (xyz : ℕ × ℕ × ℕ) : GenState :=
  let w : I3 := addI3 ipos
    (((xyz.1 <<< lg_size : ℕ) : ℤ), ((xyz.2.1 <<< lg_size : ℕ) : ℤ),
     ((xyz.2.2 <<< lg_size : ℕ) : ℤ))
  let r := getVoxel field s.tree ⟨w.1, w.2.1, w.2.2, lg_size⟩
  match r.1 with
  | none => { s with tree := r.2 }
  | some voxel =>
    if ax.sel voxel.edge_crosses 0 0 then
      let g1 := getVertex field r.2 lg_size (addI3 (addI3 w ax.d1) ax.d2)
      let g2 := getVertex field g1.2 lg_size (addI3 w ax.d1)
      let v3 := toWorldVertex lg_size voxel.vertex w
      let g3 := getVertex field g2.2 lg_size (addI3 w ax.d2)
      emitQuad g1.1 g2.1 v3 g3.1 (voxel.facing ax.facingIdx)
        { s with tree := g3.2 }
    else { s with tree := r.2 }

/-- The lattice offsets of the triple loop, x outermost, each ascending. -/
def latticePositions (n : ℕ) : List (ℕ × ℕ × ℕ) :=
  (List.range n).flatMap fun x =>
    (List.range n).flatMap fun y =>
      (List.range n).map fun z => (x, y, z)

/-- One `extract!` expansion: fold the step over the lattice positions. -/
def extractAxis (field : ℚ → ℚ → ℚ → Bool) (lg_size : ℕ) (ipos : I3)
    (ax : AxisData) (n : ℕ) (s : GenState) : GenState :=
  (latticePositions n).foldl (extractStep field lg_size ipos ax) s

/-- Mirrors `BLOCK_WIDTH` from `common/src/terrain_block.rs`. -/
def BLOCK_WIDTH : ℕ := 8

/-- Mirrors `LOD_QUALITY` from `common/src/terrain_block.rs`. -/
def LOD_QUALITY : Fin 4 → ℕ := ![8, 4, 2, 1]

/-- Modelled from the spec: `BlockPosition::to_world_position` (the
`block_position` module is not among the provided sources); world space is
divided into cubes of side `BLOCK_WIDTH`, so the world position of a block
is its index scaled by `BLOCK_WIDTH`. -/
def blockToWorld (p : I3) : I3 :=
  ((BLOCK_WIDTH : ℤ) * p.1, (BLOCK_WIDTH : ℤ) * p.2.1, (BLOCK_WIDTH : ℤ) * p.2.2)

/-- `Int::trailing_zeros` on a 32-bit value (returns the bit width on 0),
computed with structural fuel equal to the bit width. -/
def tzAux (fuel n : ℕ) : ℕ :=
  match fuel with
  | 0 => 32
  | f + 1 => if n = 0 then 32 else if n % 2 = 1 then 0 else tzAux f (n / 2) + 1

def trailingZeros (n : ℕ) : ℕ := tzAux 32 n

/-- The four `assert!` conditions of `generate_block` in source order:
`lateral_samples <= BLOCK_WIDTH`, `BLOCK_WIDTH % lateral_samples == 0`,
`1 << lg_size == voxel_size`, and `lg_size < 31`.  `generate_block` fails
fast (fatal panic) exactly when this is false. -/
def generateBlockAsserts (lateral_samples : ℕ) : Bool :=
  (lateral_samples ≤ BLOCK_WIDTH) &&
  (BLOCK_WIDTH % lateral_samples == 0) &&
  (1 <<< trailingZeros (BLOCK_WIDTH / lateral_samples) == BLOCK_WIDTH / lateral_samples) &&
  (trailingZeros (BLOCK_WIDTH / lateral_samples) < 31)

/-- Mirrors `generate_block(timers, id_allocator, heightmap, voxels,
position, lod_index)`.  The heightmap is the opaque collaborator
`HeightMap::height_at`; the field predicate is
`heightmap.height_at(x, z) >= y`.  Returns the final state: the built
`TerrainBlock` plus the updated octree and id allocator. -/
def generate_block (heightAt : ℚ → ℚ → ℚ) (tree : VoxelTree) (nextId : ℕ)
    (position : I3) (lod : Fin 4) : GenState :=
  let ipos := blockToWorld position
  let lateral_samples := LOD_QUALITY lod
  let voxel_size := BLOCK_WIDTH / lateral_samples
  let lg_size := trailingZeros voxel_size
  let field := fun x _y z => decide (_y ≤ heightAt x z)
  let s0 : GenState := ⟨tree, nextId, TerrainBlock.empty⟩
  let s1 := extractAxis field lg_size ipos
    ⟨EdgeCrosses.x_edges, 0, (0, -(voxel_size : ℤ), 0), (0, 0, -(voxel_size : ℤ))⟩
    lateral_samples s0
  let s2 := extractAxis field lg_size ipos
    ⟨EdgeCrosses.y_edges, 1, (0, 0, -(voxel_size : ℤ)), (-(voxel_size : ℤ), 0, 0)⟩
    lateral_samples s1
  let s3 := extractAxis field lg_size ipos
    ⟨EdgeCrosses.z_edges, 2, (0, -(voxel_size : ℤ), 0), (-(voxel_size : ℤ), 0, 0)⟩
    lateral_samples s2
  s3

/-! ## Tree brush parameter clamping (client_recv_thread.rs) -/

/-- Mirrors the tree-brush parameter computation in `apply_client_update`
(`ClientToServer::Add`): each normal-distribution sample is clamped as
`max(lo, min(hi, sample))`; the height and leaf bounds use the already
clamped trunk radius.  Returns (trunk radius, trunk height, leaf radius). -/
def sampleTreeParams (trunkRadiusSample trunkHeightSample leafRadiusSample : ℚ) :
    ℚ × ℚ × ℚ :=
  let trunk_radius := max 1 (min 3 trunkRadiusSample)
  let trunk_height := max (4 * trunk_radius) (min (12 * trunk_radius) trunkHeightSample)
  let leaf_radius := max (2 * trunk_radius) (min (6 * trunk_radius) leafRadiusSample)
  (trunk_radius, trunk_height, leaf_radius)

/-! ## Concrete inputs for witnesses and counterexamples -/

/-- Field that is solid only at the origin corner. -/
def fieldOneCorner : ℚ → ℚ → ℚ → Bool :=
  fun x y z => decide (x = 0) && decide (y = 0) && decide (z = 0)

/-- The unit voxel at the origin. -/
def bounds0 : VoxelBounds := ⟨0, 0, 0, 0⟩

/-- The voxel the sampler produces for `fieldOneCorner` on `bounds0`:
3 crossing edges, all stored in the diagonal `[0][0]` array slots (where the
transposed read coincides with the construction), averaged vertex numerator
`128 / 3 = 42` per axis. -/
def voxelOneCorner : Voxel :=
  { vertex := (⟨42⟩, ⟨42⟩, ⟨42⟩)
  , edge_crosses := edgeCrossesOf (cornersAt fieldOneCorner bounds0)
  , facing := facingOf (cornersAt fieldOneCorner bounds0) }

/-- Field that is solid only at the corner one step along z. -/
def fieldCornerZ : ℚ → ℚ → ℚ → Bool :=
  fun x y z => decide (x = 0) && decide (y = 0) && decide (z = 1)

/-- The voxel the sampler produces for `fieldCornerZ` on `bounds0`.  The 3
crossing edges are the x edge at `(y, z) = (0, 1)`, the y edge at
`(x, z) = (0, 1)` (stored in `y_edges[1][0]`), and the z edge at
`(x, y) = (0, 0)`.  The accumulation loops read `y_edges[1][0]` as the edge
at `x = 1, z = 0` and add `(256, 128, 0)` instead of the true midpoint
contribution `(0, 128, 256)`, so the source stores vertex numerators
`(384/3, 128/3, 384/3) = (128, 42, 128)`. -/
def voxelCornerZ : Voxel :=
  { vertex := (⟨128⟩, ⟨42⟩, ⟨128⟩)
  , edge_crosses := edgeCrossesOf (cornersAt fieldCornerZ bounds0)
  , facing := facingOf (cornersAt fieldCornerZ bounds0) }

/-- An arbitrary cached voxel different from `voxelOneCorner`. -/
def voxelStale : Voxel :=
  ⟨(⟨7⟩, ⟨7⟩, ⟨7⟩), ⟨fun _ _ => false, fun _ _ => false, fun _ _ => false⟩, fun _ => false⟩

/-- A tree whose slot at `bounds0` already holds a stale Leaf. -/
def treeWithStaleLeaf : VoxelTree :=
  fun b => if b = bounds0 then TreeBody.Leaf voxelStale else TreeBody.Empty

/-- The all-Empty octree. -/
def emptyTree : VoxelTree := fun _ => TreeBody.Empty

/-- Flat heightmap of height 4 (solid below y = 4). -/
def heightFlat4 : ℚ → ℚ → ℚ := fun _ _ => 4

theorem mkCorners_eta (c : Corners) :
    mkCorners (c 0 0 0) (c 0 0 1) (c 0 1 0) (c 0 1 1)
              (c 1 0 0) (c 1 0 1) (c 1 1 0) (c 1 1 1) = c := by
  funext i j k
  fin_cases i <;> fin_cases j <;> fin_cases k <;> rfl


theorem c2Check_all : ∀ b000 b001 b010 b011 b100 b101 b110 b111 : Bool,
    c2Check (mkCorners b000 b001 b010 b011 b100 b101 b110 b111) = true := by decide

theorem c4Check_all : ∀ b000 b001 b010 b011 b100 b101 b110 b111 : Bool,
    c4Check (mkCorners b000 b001 b010 b011 b100 b101 b110 b111) = true := by decide

theorem cornersAt_fieldCornerZ :
    cornersAt fieldCornerZ bounds0
      = mkCorners false true false false false false false false := by
  funext i j k
  fin_cases i <;> fin_cases j <;> fin_cases k <;> rfl

theorem exactMeanCorners_fieldCornerZ :
    exactMeanCorners (cornersAt fieldCornerZ bounds0) = (1/6, 1/6, 5/6) := by
  have hn : crossTotal (cornersAt fieldCornerZ bounds0) = 3 := rfl
  unfold exactMeanCorners
  rw [hn, cornersAt_fieldCornerZ]
  norm_num [sum4q, mkCorners]

/-- Claim C1 (code bug): for the field solid only at the corner one step
along z of the unit voxel, the exact arithmetic mean of the crossing-edge
midpoints is `(1/6, 1/6, 5/6)`, so the claimed within-1/256 quantization
would require numerators near `(43, 43, 213)`; the source instead stores
`(128, 42, 128)` because its vertex-accumulation loops read `y_edges` and
`z_edges` with indices transposed relative to their construction and so add
the midpoint of the transposed edge position.  The x component is off by
`1/3`, far more than `1/256`.  The y component shows the independent
rounding divergence: the scaled mean `256/6` rounds to nearest as 43 but
the source truncates to 42. -/
theorem generate_voxel_transposed_midpoints :
    generate_voxel fieldCornerZ bounds0 = some voxelCornerZ ∧
    voxelCornerZ.vertex = (⟨128⟩, ⟨42⟩, ⟨128⟩) ∧
    exactMeanCorners (cornersAt fieldCornerZ bounds0) = (1/6, 1/6, 5/6) ∧
    |(voxelCornerZ.vertex.1.numerator : ℚ) / 256
        - (exactMeanCorners (cornersAt fieldCornerZ bounds0)).1| > 1 / 256 ∧
    (voxelCornerZ.vertex.2.1.numerator : ℤ)
        ≠ round ((exactMeanCorners (cornersAt fieldCornerZ bounds0)).2.1 * 256) := by
  refine ⟨rfl, rfl, exactMeanCorners_fieldCornerZ, ?_, ?_⟩
  · rw [show voxelCornerZ.vertex.1.numerator = 128 from rfl,
      show (exactMeanCorners (cornersAt fieldCornerZ bounds0)).1 = 1/6 from by
        rw [exactMeanCorners_fieldCornerZ]]
    have h13 : ((128 : ℕ) : ℚ) / 256 - 1/6 = 1/3 := by norm_num
    rw [h13, abs_of_pos (by norm_num : (0 : ℚ) < 1/3)]
    norm_num
  · rw [show voxelCornerZ.vertex.2.1.numerator = 42 from rfl,
      show (exactMeanCorners (cornersAt fieldCornerZ bounds0)).2.1 = 1/6 from by
        rw [exactMeanCorners_fieldCornerZ]]
    norm_num [round_eq]

/-- Claim C2: the sampler returns no voxel exactly when the solid/empty
predicate agrees at all 8 cube corners; equivalently, whenever two corners
differ it returns a voxel. -/
theorem generate_voxel_none_iff_uniform (field : ℚ → ℚ → ℚ → Bool) (b : VoxelBounds) :
    generate_voxel field b = none ↔
      ∀ i j k : Fin 2, cornersAt field b i j k = cornersAt field b 0 0 0 := by
  have h := c2Check_all (cornersAt field b 0 0 0) (cornersAt field b 0 0 1)
    (cornersAt field b 0 1 0) (cornersAt field b 0 1 1) (cornersAt field b 1 0 0)
    (cornersAt field b 1 0 1) (cornersAt field b 1 1 0) (cornersAt field b 1 1 1)
  rw [mkCorners_eta] at h
  unfold c2Check at h
  exact of_decide_eq_true h

/-- Claim C4 (amended): a facing flag is true exactly when some crossing
edge on that axis has its corner nearer NEGATIVE infinity inside the solid
(the solid lies toward negative infinity), for each of the three axes. -/
theorem generate_voxel_facing_lower (field : ℚ → ℚ → ℚ → Bool) (b : VoxelBounds)
    (v : Voxel) (h : generate_voxel field b = some v) :
    (v.facing 0 = true ↔ lowerSolidX (cornersAt field b)) ∧
    (v.facing 1 = true ↔ lowerSolidY (cornersAt field b)) ∧
    (v.facing 2 = true ↔ lowerSolidZ (cornersAt field b)) := by
  have h' : genVoxelFromCorners (cornersAt field b) = some v := h
  have hc := c4Check_all (cornersAt field b 0 0 0) (cornersAt field b 0 0 1)
    (cornersAt field b 0 1 0) (cornersAt field b 0 1 1) (cornersAt field b 1 0 0)
    (cornersAt field b 1 0 1) (cornersAt field b 1 1 0) (cornersAt field b 1 1 1)
  rw [mkCorners_eta] at hc
  unfold c4Check at hc
  rw [h'] at hc
  exact of_decide_eq_true hc

theorem generate_voxel_facing_lower_witness :
    generate_voxel fieldOneCorner bounds0 = some voxelOneCorner ∧
    ((voxelOneCorner.facing 0 = true ↔ lowerSolidX (cornersAt fieldOneCorner bounds0)) ∧
     (voxelOneCorner.facing 1 = true ↔ lowerSolidY (cornersAt fieldOneCorner bounds0)) ∧
     (voxelOneCorner.facing 2 = true ↔ lowerSolidZ (cornersAt fieldOneCorner bounds0))) :=
  ⟨rfl, generate_voxel_facing_lower fieldOneCorner bounds0 voxelOneCorner rfl⟩

/-- Claim C4 counterexample: for the field solid only at the origin corner,
the x facing flag is set although no crossing x edge has its corner nearer
positive infinity inside the solid — facing does not mean "solid toward
positive infinity". -/
theorem generate_voxel_facing_not_upper :
    generate_voxel fieldOneCorner bounds0 = some voxelOneCorner ∧
    voxelOneCorner.facing 0 = true ∧
    ¬ upperSolidX (cornersAt fieldOneCorner bounds0) :=
  ⟨rfl, by decide, by decide⟩

/-- Claim C3 (amended): a fetch whose octree slot already holds a Leaf
returns the cached voxel and leaves the store untouched — the sampler is
not re-executed for Leaf slots. -/
theorem getVoxel_trusts_cached_leaf (field : ℚ → ℚ → ℚ → Bool) (t : VoxelTree)
    (b : VoxelBounds) (v : Voxel) (h : t b = TreeBody.Leaf v) :
    getVoxel field t b = (some v, t) := by
  unfold getVoxel
  rw [h]

theorem getVoxel_trusts_cached_leaf_witness :
    treeWithStaleLeaf bounds0 = TreeBody.Leaf voxelStale ∧
    getVoxel fieldOneCorner treeWithStaleLeaf bounds0 = (some voxelStale, treeWithStaleLeaf) :=
  ⟨rfl, getVoxel_trusts_cached_leaf fieldOneCorner treeWithStaleLeaf bounds0 voxelStale rfl⟩

/-- Claim C3 counterexample: with a stale Leaf cached at the slot, the
fetch returns the cached voxel even though re-running the sampler on the
current field would produce a different voxel — the mesher uses the cached
value, not the re-sampled one. -/
theorem getVoxel_uses_stale_leaf :
    (getVoxel fieldOneCorner treeWithStaleLeaf bounds0).1 = some voxelStale ∧
    generate_voxel fieldOneCorner bounds0 = some voxelOneCorner ∧
    voxelStale ≠ voxelOneCorner := by
  refine ⟨rfl, rfl, ?_⟩
  intro he
  exact absurd (congrArg (fun v => v.vertex.1.numerator) he) (by decide)

theorem addPoly_vc (v1 v2 c : Q3) (s : GenState) :
    (addPoly v1 v2 c s).block.vertex_coordinates
      = s.block.vertex_coordinates ++ [(v1, v2, c)] := rfl

theorem addPoly_normals (v1 v2 c : Q3) (s : GenState) :
    (addPoly v1 v2 c s).block.normals = s.block.normals ++ [(norm3, norm3, norm3)] := rfl

theorem addPoly_ids (v1 v2 c : Q3) (s : GenState) :
    (addPoly v1 v2 c s).block.ids = s.block.ids ++ [s.nextId] := rfl

theorem addPoly_bounds_length (v1 v2 c : Q3) (s : GenState) :
    (addPoly v1 v2 c s).block.bounds.length = s.block.bounds.length + 1 := by
  simp [addPoly]

theorem addPoly_coords (v1 v2 c : Q3) (s : GenState) :
    (addPoly v1 v2 c s).block.coords = s.block.coords := rfl

theorem emitQuad_vc_length (v1 v2 v3 v4 : Q3) (fp : Bool) (s : GenState) :
    (emitQuad v1 v2 v3 v4 fp s).block.vertex_coordinates.length
      = s.block.vertex_coordinates.length + 4 := by
  cases fp <;> simp [emitQuad, addPoly]

theorem emitQuad_normals (v1 v2 v3 v4 : Q3) (fp : Bool) (s : GenState) :
    (emitQuad v1 v2 v3 v4 fp s).block.normals
      = s.block.normals ++ List.replicate 4 (norm3, norm3, norm3) := by
  cases fp <;> simp [emitQuad, addPoly, List.replicate]

theorem emitQuad_ids_length (v1 v2 v3 v4 : Q3) (fp : Bool) (s : GenState) :
    (emitQuad v1 v2 v3 v4 fp s).block.ids.length = s.block.ids.length + 4 := by
  cases fp <;> simp [emitQuad, addPoly]

theorem emitQuad_bounds_length (v1 v2 v3 v4 : Q3) (fp : Bool) (s : GenState) :
    (emitQuad v1 v2 v3 v4 fp s).block.bounds.length = s.block.bounds.length + 4 := by
  cases fp <;> simp [emitQuad, addPoly]

theorem emitQuad_coords (v1 v2 v3 v4 : Q3) (fp : Bool) (s : GenState) :
    (emitQuad v1 v2 v3 v4 fp s).block.coords = s.block.coords := by
  cases fp <;> simp [emitQuad, addPoly]

theorem extractStep_spec (field : ℚ → ℚ → ℚ → Bool) (lg_size : ℕ) (ipos : I3)
    (ax : AxisData) (s : GenState) (p : ℕ × ℕ × ℕ) :
    ∃ k, k ≤ 4 ∧
      (extractStep field lg_size ipos ax s p).block.vertex_coordinates.length
        = s.block.vertex_coordinates.length + k ∧
      (extractStep field lg_size ipos ax s p).block.normals.length
        = s.block.normals.length + k ∧
      (extractStep field lg_size ipos ax s p).block.ids.length
        = s.block.ids.length + k ∧
      (extractStep field lg_size ipos ax s p).block.bounds.length
        = s.block.bounds.length + k ∧
      (extractStep field lg_size ipos ax s p).block.coords = s.block.coords ∧
      ∀ t ∈ (extractStep field lg_size ipos ax s p).block.normals,
        t ∈ s.block.normals ∨ t = (norm3, norm3, norm3) := by
  simp only [extractStep]
  split
  · exact ⟨0, by omega, rfl, rfl, rfl, rfl, rfl, fun t ht => Or.inl ht⟩
  · split
    · refine ⟨4, by omega, emitQuad_vc_length _ _ _ _ _ _, ?_,
        emitQuad_ids_length _ _ _ _ _ _, emitQuad_bounds_length _ _ _ _ _ _,
        emitQuad_coords _ _ _ _ _ _, ?_⟩
      · rw [emitQuad_normals]; simp
      · intro t ht
        rw [emitQuad_normals] at ht
        rcases List.mem_append.mp ht with h | h
        · exact Or.inl h
        · exact Or.inr (List.eq_of_mem_replicate h)
    · exact ⟨0, by omega, rfl, rfl, rfl, rfl, rfl, fun t ht => Or.inl ht⟩

theorem foldl_extractStep_spec (field : ℚ → ℚ → ℚ → Bool) (lg_size : ℕ) (ipos : I3)
    (ax : AxisData) (l : List (ℕ × ℕ × ℕ)) :
    ∀ s : GenState, ∃ k, k ≤ 4 * l.length ∧
      ((l.foldl (extractStep field lg_size ipos ax) s).block.vertex_coordinates.length
        = s.block.vertex_coordinates.length + k) ∧
      ((l.foldl (extractStep field lg_size ipos ax) s).block.normals.length
        = s.block.normals.length + k) ∧
      ((l.foldl (extractStep field lg_size ipos ax) s).block.ids.length
        = s.block.ids.length + k) ∧
      ((l.foldl (extractStep field lg_size ipos ax) s).block.bounds.length
        = s.block.bounds.length + k) ∧
      ((l.foldl (extractStep field lg_size ipos ax) s).block.coords = s.block.coords) ∧
      ∀ t ∈ (l.foldl (extractStep field lg_size ipos ax) s).block.normals,
        t ∈ s.block.normals ∨ t = (norm3, norm3, norm3) := by
  induction l with
  | nil =>
    intro s
    exact ⟨0, by simp, by simp, by simp, by simp, by simp, rfl, fun t ht => Or.inl ht⟩
  | cons p l ih =>
    intro s
    obtain ⟨k1, hk1, h1, h2, h3, h4, h5, h6⟩ := extractStep_spec field lg_size ipos ax s p
    obtain ⟨k2, hk2, g1, g2, g3, g4, g5, g6⟩ := ih (extractStep field lg_size ipos ax s p)
    refine ⟨k1 + k2, ?_, ?_, ?_, ?_, ?_, ?_, ?_⟩
    · simp only [List.length_cons]; omega
    · rw [List.foldl_cons, g1, h1]; omega
    · rw [List.foldl_cons, g2, h2]; omega
    · rw [List.foldl_cons, g3, h3]; omega
    · rw [List.foldl_cons, g4, h4]; omega
    · rw [List.foldl_cons, g5, h5]
    · intro t ht
      rw [List.foldl_cons] at ht
      rcases g6 t ht with h | h
      · exact h6 t h
      · exact Or.inr h

theorem length_flatMap_const {α β : Type} (l : List α) (f : α → List β) (m : ℕ)
    (h : ∀ a, (f a).length = m) : (l.flatMap f).length = l.length * m := by
  induction l with
  | nil => simp
  | cons a t ih =>
    rw [List.flatMap_cons, List.length_append, h, ih, List.length_cons,
      Nat.succ_mul, Nat.add_comm]

theorem latticePositions_length (n : ℕ) : (latticePositions n).length = n * n * n := by
  unfold latticePositions
  rw [length_flatMap_const _ _ (n * n), List.length_range]
  · ring
  · intro x
    rw [length_flatMap_const _ _ n, List.length_range]
    intro y
    simp

theorem extractAxis_spec (field : ℚ → ℚ → ℚ → Bool) (lg : ℕ) (ipos : I3)
    (ax : AxisData) (n : ℕ) (s : GenState) :
    ∃ k, k ≤ 4 * n ^ 3 ∧
      ((extractAxis field lg ipos ax n s).block.vertex_coordinates.length
        = s.block.vertex_coordinates.length + k) ∧
      ((extractAxis field lg ipos ax n s).block.normals.length
        = s.block.normals.length + k) ∧
      ((extractAxis field lg ipos ax n s).block.ids.length
        = s.block.ids.length + k) ∧
      ((extractAxis field lg ipos ax n s).block.bounds.length
        = s.block.bounds.length + k) ∧
      ((extractAxis field lg ipos ax n s).block.coords = s.block.coords) ∧
      ∀ t ∈ (extractAxis field lg ipos ax n s).block.normals,
        t ∈ s.block.normals ∨ t = (norm3, norm3, norm3) := by
  obtain ⟨k, hk, h1, h2, h3, h4, h5, h6⟩ :=
    foldl_extractStep_spec field lg ipos ax (latticePositions n) s
  refine ⟨k, ?_, h1, h2, h3, h4, h5, h6⟩
  calc k ≤ 4 * (latticePositions n).length := hk
    _ = 4 * (n * n * n) := by rw [latticePositions_length]
    _ = 4 * n ^ 3 := by ring

theorem extractAxis3_spec (field : ℚ → ℚ → ℚ → Bool) (lg : ℕ) (ipos : I3)
    (ax1 ax2 ax3 : AxisData) (n : ℕ) (tree : VoxelTree) (nextId : ℕ) :
    ∃ k, k ≤ 4 * 3 * n ^ 3 ∧
      ((extractAxis field lg ipos ax3 n (extractAxis field lg ipos ax2 n
        (extractAxis field lg ipos ax1 n
          ⟨tree, nextId, TerrainBlock.empty⟩))).block.vertex_coordinates.length = k) ∧
      ((extractAxis field lg ipos ax3 n (extractAxis field lg ipos ax2 n
        (extractAxis field lg ipos ax1 n
          ⟨tree, nextId, TerrainBlock.empty⟩))).block.normals.length = k) ∧
      ((extractAxis field lg ipos ax3 n (extractAxis field lg ipos ax2 n
        (extractAxis field lg ipos ax1 n
          ⟨tree, nextId, TerrainBlock.empty⟩))).block.ids.length = k) ∧
      ((extractAxis field lg ipos ax3 n (extractAxis field lg ipos ax2 n
        (extractAxis field lg ipos ax1 n
          ⟨tree, nextId, TerrainBlock.empty⟩))).block.bounds.length = k) ∧
      ((extractAxis field lg ipos ax3 n (extractAxis field lg ipos ax2 n
        (extractAxis field lg ipos ax1 n
          ⟨tree, nextId, TerrainBlock.empty⟩))).block.coords = []) ∧
      ∀ t ∈ (extractAxis field lg ipos ax3 n (extractAxis field lg ipos ax2 n
        (extractAxis field lg ipos ax1 n
          ⟨tree, nextId, TerrainBlock.empty⟩))).block.normals,
        t = (norm3, norm3, norm3) := by
  obtain ⟨k1, hk1, a1, a2, a3, a4, a5, a6⟩ :=
    extractAxis_spec field lg ipos ax1 n ⟨tree, nextId, TerrainBlock.empty⟩
  obtain ⟨k2, hk2, b1, b2, b3, b4, b5, b6⟩ :=
    extractAxis_spec field lg ipos ax2 n
      (extractAxis field lg ipos ax1 n ⟨tree, nextId, TerrainBlock.empty⟩)
  obtain ⟨k3, hk3, c1, c2, c3, c4, c5, c6⟩ :=
    extractAxis_spec field lg ipos ax3 n (extractAxis field lg ipos ax2 n
      (extractAxis field lg ipos ax1 n ⟨tree, nextId, TerrainBlock.empty⟩))
  refine ⟨k1 + k2 + k3, ?_, ?_, ?_, ?_, ?_, ?_, ?_⟩
  · have h : 4 * 3 * n ^ 3 = 4 * n ^ 3 + 4 * n ^ 3 + 4 * n ^ 3 := by ring
    omega
  · rw [c1, b1, a1]; simp [TerrainBlock.empty]
  · rw [c2, b2, a2]; simp [TerrainBlock.empty]
  · rw [c3, b3, a3]; simp [TerrainBlock.empty]
  · rw [c4, b4, a4]; simp [TerrainBlock.empty]
  · rw [c5, b5, a5]; rfl
  · intro t ht
    rcases c6 t ht with h | h
    · rcases b6 t h with h2 | h2
      · rcases a6 t h2 with h3 | h3
        · exact absurd h3 (List.not_mem_nil t)
        · exact h3
      · exact h2
    · exact h

theorem generate_block_spec (heightAt : ℚ → ℚ → ℚ) (tree : VoxelTree) (nextId : ℕ)
    (position : I3) (lod : Fin 4) :
    ∃ k, k ≤ 4 * 3 * (LOD_QUALITY lod) ^ 3 ∧
      ((generate_block heightAt tree nextId position lod).block.vertex_coordinates.length = k) ∧
      ((generate_block heightAt tree nextId position lod).block.normals.length = k) ∧
      ((generate_block heightAt tree nextId position lod).block.ids.length = k) ∧
      ((generate_block heightAt tree nextId position lod).block.bounds.length = k) ∧
      ((generate_block heightAt tree nextId position lod).block.coords = []) ∧
      ∀ t ∈ (generate_block heightAt tree nextId position lod).block.normals,
        t = (norm3, norm3, norm3) :=
  extractAxis3_spec (fun x _y z => decide (_y ≤ heightAt x z))
    (trailingZeros (BLOCK_WIDTH / LOD_QUALITY lod)) (blockToWorld position)
    ⟨EdgeCrosses.x_edges, 0, (0, -((BLOCK_WIDTH / LOD_QUALITY lod : ℕ) : ℤ), 0),
      (0, 0, -((BLOCK_WIDTH / LOD_QUALITY lod : ℕ) : ℤ))⟩
    ⟨EdgeCrosses.y_edges, 1, (0, 0, -((BLOCK_WIDTH / LOD_QUALITY lod : ℕ) : ℤ)),
      (-((BLOCK_WIDTH / LOD_QUALITY lod : ℕ) : ℤ), 0, 0)⟩
    ⟨EdgeCrosses.z_edges, 2, (0, -((BLOCK_WIDTH / LOD_QUALITY lod : ℕ) : ℤ), 0),
      (-((BLOCK_WIDTH / LOD_QUALITY lod : ℕ) : ℤ), 0, 0)⟩
    (LOD_QUALITY lod) tree nextId

/-- Claim C5 (amended): the four sequences `generate_block` actually fills —
vertex positions, normals, entity ids, bounding boxes — always have equal
length (one entry per triangle), but the material/texture-reference
sequence `coords` is left empty. -/
theorem generate_block_parallel_lengths (heightAt : ℚ → ℚ → ℚ) (tree : VoxelTree)
    (nextId : ℕ) (position : I3) (lod : Fin 4) :
    ((generate_block heightAt tree nextId position lod).block.vertex_coordinates.length
      = (generate_block heightAt tree nextId position lod).block.normals.length) ∧
    ((generate_block heightAt tree nextId position lod).block.normals.length
      = (generate_block heightAt tree nextId position lod).block.ids.length) ∧
    ((generate_block heightAt tree nextId position lod).block.ids.length
      = (generate_block heightAt tree nextId position lod).block.bounds.length) ∧
    ((generate_block heightAt tree nextId position lod).block.coords = []) := by
  obtain ⟨k, _, a1, a2, a3, a4, a5, _⟩ :=
    generate_block_spec heightAt tree nextId position lod
  exact ⟨by rw [a1, a2], by rw [a2, a3], by rw [a3, a4], a5⟩

/-- Claim C5 counterexample: a flat height-4 field at the coarsest LOD emits
4 triangles, yet the texture-reference sequence (`coords`, indices into
`pixels`) stays empty — it is not kept parallel with the other per-triangle
sequences. -/
theorem generate_block_texture_seq_not_parallel :
    (generate_block heightFlat4 emptyTree 0 (0, 0, 0) 3).block.vertex_coordinates.length = 4 ∧
    (generate_block heightFlat4 emptyTree 0 (0, 0, 0) 3).block.coords.length = 0 ∧
    (generate_block heightFlat4 emptyTree 0 (0, 0, 0) 3).block.pixels.length = 0 :=
  ⟨rfl, rfl, rfl⟩

/-- Claim C6: `generate_block` is deterministic — identical heightmap,
octree state, id-source state, block position and LOD yield identical
vertex, normal, and bounds sequences (the embedding also fixes the source
iteration order: axis outermost, then lattice positions ascending). -/
theorem generate_block_deterministic (heightAt : ℚ → ℚ → ℚ) (position : I3)
    (lod : Fin 4) (t1 t2 : VoxelTree) (n1 n2 : ℕ) (ht : t1 = t2) (hn : n1 = n2) :
    ((generate_block heightAt t1 n1 position lod).block.vertex_coordinates
      = (generate_block heightAt t2 n2 position lod).block.vertex_coordinates) ∧
    ((generate_block heightAt t1 n1 position lod).block.normals
      = (generate_block heightAt t2 n2 position lod).block.normals) ∧
    ((generate_block heightAt t1 n1 position lod).block.bounds
      = (generate_block heightAt t2 n2 position lod).block.bounds) := by
  subst ht; subst hn; exact ⟨rfl, rfl, rfl⟩

theorem generate_block_deterministic_witness :
    emptyTree = emptyTree ∧ (0 : ℕ) = 0 ∧
    (((generate_block heightFlat4 emptyTree 0 (0, 0, 0) 3).block.vertex_coordinates
      = (generate_block heightFlat4 emptyTree 0 (0, 0, 0) 3).block.vertex_coordinates) ∧
    ((generate_block heightFlat4 emptyTree 0 (0, 0, 0) 3).block.normals
      = (generate_block heightFlat4 emptyTree 0 (0, 0, 0) 3).block.normals) ∧
    ((generate_block heightFlat4 emptyTree 0 (0, 0, 0) 3).block.bounds
      = (generate_block heightFlat4 emptyTree 0 (0, 0, 0) 3).block.bounds)) :=
  ⟨rfl, rfl,
    generate_block_deterministic heightFlat4 (0, 0, 0) 3 emptyTree emptyTree 0 0 rfl rfl⟩

/-- Claim C7: the number of triangles a block mesh holds is bounded by
`4 * 3 * N^3` for `N` lateral samples at the chosen LOD — at most 4
triangles per crossing edge, one edge considered per axis per voxel. -/
theorem generate_block_triangle_bound (heightAt : ℚ → ℚ → ℚ) (tree : VoxelTree)
    (nextId : ℕ) (position : I3) (lod : Fin 4) :
    (generate_block heightAt tree nextId position lod).block.vertex_coordinates.length
      ≤ 4 * 3 * (LOD_QUALITY lod) ^ 3 := by
  obtain ⟨k, hk, a1, _⟩ := generate_block_spec heightAt tree nextId position lod
  rw [a1]; exact hk

/-- Claim C10: every normal `generate_block` emits is the constant vector
`(0, 1, 0)`, repeated for all three vertices of every triangle, regardless
of geometry, field input, or LOD. -/
theorem generate_block_normals_constant (heightAt : ℚ → ℚ → ℚ) (tree : VoxelTree)
    (nextId : ℕ) (position : I3) (lod : Fin 4) :
    (generate_block heightAt tree nextId position lod).block.normals
      = List.replicate
          (generate_block heightAt tree nextId position lod).block.normals.length
          (norm3, norm3, norm3) := by
  obtain ⟨k, _, _, _, _, _, _, a6⟩ := generate_block_spec heightAt tree nextId position lod
  exact List.eq_replicate_of_mem a6

theorem generateBlockAsserts_iff (ls : ℕ) (h1 : 1 ≤ ls) :
    generateBlockAsserts ls = true ↔
      (BLOCK_WIDTH % ls = 0 ∧ ∃ k, BLOCK_WIDTH / ls = 2 ^ k) := by
  constructor
  · intro hp
    unfold generateBlockAsserts at hp
    simp only [Bool.and_eq_true, decide_eq_true_eq, beq_iff_eq] at hp
    obtain ⟨⟨⟨hle, hmod⟩, hpow⟩, hlg⟩ := hp
    refine ⟨hmod, trailingZeros (BLOCK_WIDTH / ls), ?_⟩
    rw [← Nat.one_shiftLeft]
    exact hpow.symm
  · rintro ⟨hmod, -⟩
    have hdvd : ls ∣ BLOCK_WIDTH := Nat.dvd_of_mod_eq_zero hmod
    have hle : ls ≤ 8 := Nat.le_of_dvd (by norm_num) (by simpa [BLOCK_WIDTH] using hdvd)
    interval_cases ls <;> revert hmod <;> decide

/-- Claim C8: `generate_block` fails fast (a fatal assertion) exactly when
`BLOCK_WIDTH` is not divisible by the lateral sample count or the resulting
voxel size is not a power of two, and for the 4 defined LOD levels
(sample counts 8, 4, 2, 1) no assertion fires. -/
theorem generate_block_asserts_characterization :
    (∀ ls : ℕ, 1 ≤ ls →
      (generateBlockAsserts ls = false ↔
        ¬(BLOCK_WIDTH % ls = 0 ∧ ∃ k, BLOCK_WIDTH / ls = 2 ^ k))) ∧
    (∀ lod : Fin 4, generateBlockAsserts (LOD_QUALITY lod) = true) := by
  constructor
  · intro ls h1
    rw [show (generateBlockAsserts ls = false) ↔ ¬(generateBlockAsserts ls = true) from by
      simp]
    exact not_congr (generateBlockAsserts_iff ls h1)
  · decide

theorem generate_block_asserts_characterization_witness :
    ((1 : ℕ) ≤ 3 ∧
      (generateBlockAsserts 3 = false ↔
        ¬(BLOCK_WIDTH % 3 = 0 ∧ ∃ k, BLOCK_WIDTH / 3 = 2 ^ k))) ∧
    generateBlockAsserts (LOD_QUALITY 0) = true :=
  ⟨⟨by norm_num, generate_block_asserts_characterization.1 3 (by norm_num)⟩,
    generate_block_asserts_characterization.2 0⟩

/-- Claim C9: after clamping, the trunk radius lies in `[1, 3]`, the trunk
height in `[4r, 12r]`, and the leaf radius in `[2r, 6r]` where `r` is the
clamped trunk radius; each clamp is computed as `max(lo, min(hi, sample))`.
Holds for every triple of distribution samples. -/
theorem sampleTreeParams_clamped (s1 s2 s3 : ℚ) :
    (1 ≤ (sampleTreeParams s1 s2 s3).1 ∧ (sampleTreeParams s1 s2 s3).1 ≤ 3) ∧
    (4 * (sampleTreeParams s1 s2 s3).1 ≤ (sampleTreeParams s1 s2 s3).2.1 ∧
      (sampleTreeParams s1 s2 s3).2.1 ≤ 12 * (sampleTreeParams s1 s2 s3).1) ∧
    (2 * (sampleTreeParams s1 s2 s3).1 ≤ (sampleTreeParams s1 s2 s3).2.2 ∧
      (sampleTreeParams s1 s2 s3).2.2 ≤ 6 * (sampleTreeParams s1 s2 s3).1) := by
  have h1 : (1 : ℚ) ≤ max 1 (min 3 s1) := le_max_left _ _
  refine ⟨⟨?_, ?_⟩, ⟨?_, ?_⟩, ⟨?_, ?_⟩⟩
  · exact h1
  · show max 1 (min 3 s1) ≤ 3
    exact max_le (by norm_num) (min_le_left _ _)
  · show 4 * max 1 (min 3 s1)
      ≤ max (4 * max 1 (min 3 s1)) (min (12 * max 1 (min 3 s1)) s2)
    exact le_max_left _ _
  · show max (4 * max 1 (min 3 s1)) (min (12 * max 1 (min 3 s1)) s2)
      ≤ 12 * max 1 (min 3 s1)
    exact max_le (by linarith) (min_le_left _ _)
  · show 2 * max 1 (min 3 s1)
      ≤ max (2 * max 1 (min 3 s1)) (min (6 * max 1 (min 3 s1)) s3)
    exact le_max_left _ _
  · show max (2 * max 1 (min 3 s1)) (min (6 * max 1 (min 3 s1)) s3)
      ≤ 6 * max 1 (min 3 s1)
    exact max_le (by linarith) (min_le_left _ _)
